import Mathlib

/-!
Verification of the bounce-classifier inference core.

The JavaScript source (src/index.js) is shallowly embedded: messages are
lists of characters, JS numbers used for scores are rationals (decision
logic) or reals (network arithmetic), JS regular expressions are translated
into a small backtracking matcher whose priority order (leftmost start,
left-first alternation, greedy/lazy repetition) mirrors the JS engine on
the pattern forms the source uses.
-/

namespace BounceClassifier

/-! ### Character classes used by the source regular expressions -/

/-- Word character for `\b` and `\w`: ASCII letters, digits, underscore. -/
def isWordChar (c : Char) : Bool :=
  c.isAlphanum || c == '_'

/-- JS `\s` whitespace (the characters relevant to this ASCII-oriented code). -/
def isSpaceJs (c : Char) : Bool :=
  c == ' ' || c == '\t' || c == '\n' || c == '\r' ||
  c == Char.ofNat 11 || c == Char.ofNat 12 || c == Char.ofNat 160

/-- JS `.`: any character except line terminators. -/
def isDotChar (c : Char) : Bool :=
  !(c == '\n' || c == '\r' || c == Char.ofNat 8232 || c == Char.ofNat 8233)

/-- Whitespace stripped by JS `String.prototype.trim` (ASCII set plus NBSP
and the line separators). -/
def isTrimWs (c : Char) : Bool :=
  isSpaceJs c || c == Char.ofNat 8232 || c == Char.ofNat 8233

/-- Lower-casing a character list models matching with the `/i` flag
against a lower-cased pattern. -/
def lowerStr (s : List Char) : List Char := s.map Char.toLower

/-- Apostrophe character, used in the text-pattern literals. -/
def apos : Char := Char.ofNat 39

/-! ### Regular-expression abstract syntax

Only the constructs appearing in the source patterns are supported:
single-character classes, literals, sequencing, alternation, bounded or
unbounded greedy/lazy repetition of a character class, capture groups and
word boundaries. -/

inductive RE where
  | eps : RE
  | cls (p : Char → Bool) : RE
  | lit (cs : List Char) : RE
  | seq (a b : RE) : RE
  | alt (a b : RE) : RE
  | repG (p : Char → Bool) (lo : Nat) (hi : Option Nat) : RE
  | repL (p : Char → Bool) (lo : Nat) (hi : Option Nat) : RE
  | grp (n : Nat) (r : RE) : RE
  | wb : RE

/-- Captured groups: group number paired with the captured characters. -/
abbrev Caps := List (Nat × List Char)

/-- Length of the longest prefix of `s` whose characters satisfy `p`. -/
def runLen (p : Char → Bool) : List Char → Nat
  | [] => 0
  | c :: r => if p c then runLen p r + 1 else 0

/-- Previous character after consuming `k` characters of `s`
(`pv` is the character just before `s`). -/
def prevAfter (s : List Char) (pv : Option Char) (k : Nat) : Option Char :=
  if k = 0 then pv else (s.take k).getLast?

/-- Consume a literal; returns the rest of the input and the new previous
character on success. -/
def litRun : List Char → List Char → Option Char → Option (List Char × Option Char)
  | [], s, pv => some (s, pv)
  | _ :: _, [], _ => none
  | c :: cs, x :: s, _ => if x == c then litRun cs s (some x) else none

/-- Word-boundary test between the previous character and the next input
character. -/
def atBoundary (pv : Option Char) (s : List Char) : Bool :=
  (match pv with | none => false | some c => isWordChar c)
    != (match s with | [] => false | c :: _ => isWordChar c)

/-- Backtracking matcher.  `nfaRun r s pv` returns every way `r` can match
a prefix of `s`, in the priority order a JS regex engine would try them:
each outcome is the remaining input, the new previous character, and the
captures recorded along that alternative. -/
def nfaRun : RE → List Char → Option Char → List (List Char × Option Char × Caps)
  | .eps, s, pv => [(s, pv, [])]
  | .cls p, s, _ =>
      match s with
      | [] => []
      | c :: r => if p c then [(r, some c, [])] else []
  | .lit cs, s, pv =>
      match litRun cs s pv with
      | some (r, pv2) => [(r, pv2, [])]
      | none => []
  | .seq a b, s, pv =>
      ((nfaRun a s pv).map (fun o =>
        (nfaRun b o.1 o.2.1).map (fun o2 => (o2.1, o2.2.1, o.2.2 ++ o2.2.2)))).flatten
  | .alt a b, s, pv => nfaRun a s pv ++ nfaRun b s pv
  | .repG p lo hi, s, pv =>
      let n := match hi with | some h => min h (runLen p s) | none => runLen p s
      (((List.range (n + 1)).reverse).filter (fun k => decide (lo ≤ k))).map
        (fun k => (s.drop k, prevAfter s pv k, ([] : Caps)))
  | .repL p lo hi, s, pv =>
      let n := match hi with | some h => min h (runLen p s) | none => runLen p s
      ((List.range (n + 1)).filter (fun k => decide (lo ≤ k))).map
        (fun k => (s.drop k, prevAfter s pv k, ([] : Caps)))
  | .grp n r, s, pv =>
      (nfaRun r s pv).map (fun o => (o.1, o.2.1, o.2.2 ++ [(n, s.take (s.length - o.1.length))]))
  | .wb, s, pv => if atBoundary pv s then [(s, pv, [])] else []

/-- Anchored match at the current position: the captures of the
highest-priority alternative, if any. -/
def matchHere (r : RE) (s : List Char) (pv : Option Char) : Option Caps :=
  match nfaRun r s pv with
  | [] => none
  | o :: _ => some o.2.2

/-- Scan for the leftmost position where `r` matches. -/
def searchAux (r : RE) : List Char → Option Char → Option Caps
  | s, pv =>
    match matchHere r s pv with
    | some caps => some caps
    | none =>
      match s with
      | [] => none
      | c :: rest => searchAux r rest (some c)

/-- Unanchored search from the start of the string, as JS
`String.prototype.match` with a non-anchored pattern. -/
def reMatch (r : RE) (s : List Char) : Option Caps := searchAux r s none

/-- Boolean test, as JS `RegExp.prototype.test`. -/
def reTest (r : RE) (s : List Char) : Bool := (reMatch r s).isSome

/-- Look up a capture group by number. -/
def capGet (caps : Caps) (n : Nat) : Option (List Char) := caps.lookup n

/-- Sequence a list of regex fragments. -/
def rcat (l : List RE) : RE := l.foldr .seq .eps

/-- Left-first alternation of a list of fragments. -/
def raltL : List RE → RE
  | [] => .eps
  | [r] => r
  | r :: rest => .alt r (raltL rest)

/-- Literal fragment from a string. -/
def rlit (s : String) : RE := .lit s.data

/-- Greedy optional fragment (`x?`). -/
def ropt (r : RE) : RE := .alt r .eps

/-! ### SMTP code extraction (src/index.js `extractSmtpCodes`) -/

/-- Result record of `extractSmtpCodes`. -/
structure SmtpCodes where
  mainCode : Option String
  extendedCode : Option String
deriving DecidableEq, Repr

/-- The anchored pattern `^(\d{3})[\s-]`. -/
def mainCodeRe : RE :=
  .seq (.grp 1 (.repG Char.isDigit 3 (some 3)))
    (.cls (fun c => isSpaceJs c || c == '-'))

/-- The pattern `\b([245])\.(\d{1,3})\.(\d{1,3})\b`. -/
def extCodeRe : RE :=
  rcat [.wb, .grp 1 (.cls (fun c => c == '2' || c == '4' || c == '5')), .lit ['.'],
    .grp 2 (.repG Char.isDigit 1 (some 3)), .lit ['.'],
    .grp 3 (.repG Char.isDigit 1 (some 3)), .wb]

/-- Extract SMTP codes from a message: the main code only at the very start
(anchored match), the extended code anywhere (leftmost match), rebuilt from
its three capture groups. -/
def extractSmtpCodes (message : List Char) : SmtpCodes :=
  let mc := (matchHere mainCodeRe message none).bind
    (fun caps => (capGet caps 1).map String.mk)
  let ec := (reMatch extCodeRe message).bind
    (fun caps =>
      match capGet caps 1, capGet caps 2, capGet caps 3 with
      | some a, some b, some c => some (String.mk (a ++ ['.'] ++ b ++ ['.'] ++ c))
      | _, _, _ => none)
  { mainCode := mc, extendedCode := ec }

/-! ### Text-pattern fallbacks (src/index.js `TEXT_PATTERN_FALLBACKS`) -/

/-- Text-based pattern fallbacks, in source order; patterns are written
lower-cased and tested against the lower-cased message to model the `/i`
flag. -/
def TEXT_PATTERN_FALLBACKS : List (RE × String) :=
  [ (rcat [.lit ("doesn".data ++ [apos] ++ "t have a ".data),
        .repL isDotChar 0 (some 50), rlit " account"], "user_unknown"),
    (rcat [.lit ("user doesn".data ++ [apos] ++ "t have ".data),
        .repL isDotChar 0 (some 50), rlit " account"], "user_unknown"),
    (rlit "not a valid recipient", "user_unknown"),
    (rlit "no such user", "user_unknown"),
    (rlit "user unknown", "user_unknown"),
    (rlit "mailbox not found", "user_unknown"),
    (rlit "recipient rejected", "user_unknown"),
    (rlit "sender is unauthenticated", "auth_failure"),
    (rcat [rlit "requires ", .repL isDotChar 0 (some 50), rlit " authenticate"],
      "auth_failure") ]

/-- Return the label of the first matching text pattern. -/
def firstLabel : List (RE × String) → List Char → Option String
  | [], _ => none
  | (p, lab) :: rest, m => if reTest p m then some lab else firstLabel rest m

/-- Get fallback classification based on text patterns. -/
def getTextBasedFallback (message : List Char) : Option String :=
  firstLabel TEXT_PATTERN_FALLBACKS (lowerStr message)

/-! ### SMTP code tables (src/index.js `SMTP_CODE_MAP`, `SMTP_MAIN_CODE_MAP`) -/

/-- SMTP enhanced status code mapping (RFC 3463). -/
def SMTP_CODE_MAP : List (String × String) :=
  [ ("5.1.1", "user_unknown"), ("5.1.2", "invalid_address"),
    ("5.1.3", "invalid_address"), ("5.1.6", "invalid_address"),
    ("4.1.1", "user_unknown"), ("5.2.0", "user_unknown"),
    ("5.2.1", "mailbox_disabled"), ("5.2.2", "mailbox_full"),
    ("5.2.3", "rate_limited"), ("4.2.0", "greylisting"),
    ("4.2.1", "rate_limited"), ("4.2.2", "mailbox_full"),
    ("5.3.0", "server_error"), ("5.3.1", "server_error"),
    ("5.3.2", "server_error"), ("4.3.0", "server_error"),
    ("4.3.1", "server_error"), ("4.3.2", "server_error"),
    ("5.4.1", "user_unknown"), ("5.4.4", "server_error"),
    ("4.4.1", "server_error"), ("4.4.2", "server_error"),
    ("5.5.0", "user_unknown"), ("5.5.1", "invalid_address"),
    ("5.5.2", "invalid_address"), ("5.6.1", "policy_blocked"),
    ("5.6.2", "policy_blocked"), ("5.7.0", "virus_detected"),
    ("5.7.1", "policy_blocked"), ("5.7.2", "relay_denied"),
    ("5.7.8", "auth_failure"), ("5.7.9", "auth_failure"),
    ("5.7.23", "auth_failure"), ("5.7.25", "auth_failure"),
    ("5.7.26", "auth_failure"), ("4.7.0", "rate_limited"),
    ("4.7.1", "rate_limited"), ("4.7.3", "rate_limited"),
    ("4.7.28", "rate_limited"), ("4.7.32", "rate_limited"),
    ("4.7.650", "rate_limited"), ("4.7.651", "rate_limited"),
    ("5.2.121", "rate_limited"), ("5.2.122", "rate_limited") ]

/-- SMTP main (three-digit) code mapping. -/
def SMTP_MAIN_CODE_MAP : List (String × String) :=
  [ ("421", "greylisting"), ("450", "greylisting"),
    ("451", "server_error"), ("452", "server_error"),
    ("500", "invalid_address"), ("501", "invalid_address"),
    ("502", "server_error"), ("503", "server_error"),
    ("504", "server_error"), ("550", "user_unknown"),
    ("551", "relay_denied"), ("552", "mailbox_full"),
    ("553", "invalid_address"), ("554", "policy_blocked"),
    ("571", "spam_blocked") ]

/-- Get fallback classification: text patterns first, then the extended
code table, then the main code table. -/
def getCodeBasedFallback (message : List Char) : Option String :=
  match getTextBasedFallback message with
  | some l => some l
  | none =>
    let codes := extractSmtpCodes message
    match codes.extendedCode.bind (fun c => SMTP_CODE_MAP.lookup c) with
    | some l => some l
    | none => codes.mainCode.bind (fun c => SMTP_MAIN_CODE_MAP.lookup c)

/-! ### Retry-timing extraction (src/index.js `RETRY_PATTERNS`,
`toSeconds`, `extractRetryTiming`) -/

/-- Fragment `\s+`. -/
def spR1 : RE := .repG isSpaceJs 1 none

/-- Fragment `\s*`. -/
def spR0 : RE := .repG isSpaceJs 0 none

/-- Fragment `(\d+)` as capture group 1. -/
def numG1 : RE := .grp 1 (.repG Char.isDigit 1 none)

/-- Fragment `(second|minute|hour|min|sec|hr)` as capture group 2. -/
def unitG2 : RE :=
  .grp 2 (raltL [rlit "second", rlit "minute", rlit "hour", rlit "min",
    rlit "sec", rlit "hr"])

/-- Fragment `s?`. -/
def optS : RE := ropt (.lit ['s'])

/-- Pattern `try\s+again\s+in\s+(\d+)\s*(second|minute|hour|min|sec|hr)s?`. -/
def retryPat1 : RE :=
  rcat [rlit "try", spR1, rlit "again", spR1, rlit "in", spR1, numG1, spR0, unitG2, optS]

/-- Pattern `retry\s+in\s+(\d+)\s*(second|minute|hour|min|sec|hr)s?`. -/
def retryPat2 : RE :=
  rcat [rlit "retry", spR1, rlit "in", spR1, numG1, spR0, unitG2, optS]

/-- Pattern `wait\s+(\d+)\s*(second|minute|hour|min|sec|hr)s?`. -/
def retryPat3 : RE :=
  rcat [rlit "wait", spR1, numG1, spR0, unitG2, optS]

/-- Pattern `greylisted?\s+(?:for\s+)?(\d+)\s*(second|minute|hour|min|sec|hr)s?`. -/
def retryPat4 : RE :=
  rcat [rlit "greyliste", ropt (.lit ['d']), spR1, ropt (rcat [rlit "for", spR1]),
    numG1, spR0, unitG2, optS]

/-- Pattern `delayed?\s+(?:for\s+)?(\d+)\s*(second|minute|hour|min|sec|hr)s?`. -/
def retryPat5 : RE :=
  rcat [rlit "delaye", ropt (.lit ['d']), spR1, ropt (rcat [rlit "for", spR1]),
    numG1, spR0, unitG2, optS]

/-- Pattern `come\s+back\s+in\s+(\d+)\s*(second|minute|hour|min|sec|hr)s?`. -/
def retryPat6 : RE :=
  rcat [rlit "come", spR1, rlit "back", spR1, rlit "in", spR1, numG1, spR0, unitG2, optS]

/-- Pattern `after\s+(\d+)\s*(second|minute|hour|min|sec|hr)s?`. -/
def retryPat7 : RE :=
  rcat [rlit "after", spR1, numG1, spR0, unitG2, optS]

/-- Pattern `\b(\d+)\s*(second|minute|hour)s?\b`. -/
def retryPat8 : RE :=
  rcat [.wb, numG1, spR0, .grp 2 (raltL [rlit "second", rlit "minute", rlit "hour"]),
    optS, .wb]

/-- Pattern `too\s+many.{0,50}?(\d+)\s*(second|minute|hour|min|sec|hr)s?`. -/
def retryPat9 : RE :=
  rcat [rlit "too", spR1, rlit "many", .repL isDotChar 0 (some 50), numG1, spR0, unitG2, optS]

/-- Pattern `greylist.{0,50}?(\d+)\s*(second|minute|hour|min|sec|hr)s?`. -/
def retryPat10 : RE :=
  rcat [rlit "greylist", .repL isDotChar 0 (some 50), numG1, spR0, unitG2, optS]

/-- Retry timing patterns, in source order. -/
def RETRY_PATTERNS : List RE :=
  [retryPat1, retryPat2, retryPat3, retryPat4, retryPat5,
   retryPat6, retryPat7, retryPat8, retryPat9, retryPat10]

/-- Decimal parse of a digit string, as `parseInt(value, 10)`. -/
def parseDec (l : List Char) : Nat :=
  l.foldl (fun acc c => acc * 10 + (c.toNat - 48)) 0

/-- Convert a captured value and unit to seconds. -/
def toSeconds (value : List Char) (unit : List Char) : Nat :=
  let num := parseDec value
  let u := unit.map Char.toLower
  if ("sec".data).isPrefixOf u || u == ['s'] then num
  else if ("min".data).isPrefixOf u || u == ['m'] then num * 60
  else if ("hour".data).isPrefixOf u || u == "hr".data || u == ['h'] then num * 3600
  else num

/-- Loop of `extractRetryTiming`: first pattern whose match yields an
in-range number of seconds wins; out-of-range matches fall through to the
remaining patterns. -/
def retryLoop : List RE → List Char → Option Nat
  | [], _ => none
  | p :: ps, m =>
    match reMatch p m with
    | some caps =>
      match capGet caps 1 with
      | some v =>
        if v ≠ [] then
          let secs := toSeconds v ((capGet caps 2).getD ("seconds".data))
          if 1 ≤ secs ∧ secs ≤ 86400 then some secs else retryLoop ps m
        else retryLoop ps m
      | none => retryLoop ps m
    | none => retryLoop ps m

/-- Extract retry timing from a message. -/
def extractRetryTiming (message : List Char) : Option Nat :=
  retryLoop RETRY_PATTERNS (lowerStr message)

/-! ### Blocklist identification (src/index.js `BLOCKLIST_PATTERNS`,
`identifyBlocklist`) -/

/-- One identified blocklist: a name and a type. -/
structure BlockInfo where
  name : String
  btype : String
deriving DecidableEq, Repr

/-- Known blocklists and their patterns, in source order (literals
lower-cased; the message is lower-cased to model `/i`). -/
def BLOCKLIST_PATTERNS : List (RE × String × String) :=
  [ (rlit "spamhaus.org", "Spamhaus", "ip"),
    (rcat [.wb, rlit "sbl", .wb], "Spamhaus SBL", "ip"),
    (rcat [.wb, rlit "xbl", .wb], "Spamhaus XBL", "ip"),
    (rcat [.wb, rlit "pbl", .wb], "Spamhaus PBL", "ip"),
    (rcat [.wb, rlit "dbl.spamhaus"], "Spamhaus DBL", "domain"),
    (rcat [.wb, rlit "zen.spamhaus"], "Spamhaus ZEN", "ip"),
    (rlit "barracuda", "Barracuda", "ip"),
    (rlit "b.barracudacentral", "Barracuda", "ip"),
    (rlit "sorbs.net", "SORBS", "ip"),
    (rlit "dnsbl.sorbs", "SORBS", "ip"),
    (rlit "spamcop.net", "SpamCop", "ip"),
    (rlit "uribl.com", "URIBL", "uri"),
    (rlit "multi.uribl", "URIBL", "uri"),
    (rlit "cloudmark", "Cloudmark", "ip"),
    (rlit "proofpoint", "Proofpoint", "ip"),
    (rlit "mimecast", "Mimecast", "ip"),
    (rcat [.wb, rlit "s3150", .wb], "Microsoft Blocklist", "ip"),
    (rlit "invaluement", "Invaluement", "ip"),
    (rlit "hostkarma", "Hostkarma", "ip"),
    (rcat [rlit "trend", spR0, rlit "micro"], "Trend Micro", "ip"),
    (rcat [.wb, rlit "rbl", .wb], "RBL", "ip"),
    (rcat [.wb, rlit "dnsbl", .wb], "DNSBL", "ip"),
    (rlit "blacklist", "Blocklist", "ip"),
    (rlit "blocklist", "Blocklist", "ip") ]

/-- Collect matching blocklists, deduplicating by name in first-occurrence
order; mirrors the accumulation loop of `identifyBlocklist`. -/
def collectBlocklists : List (RE × String × String) → List Char → List BlockInfo → List BlockInfo
  | [], _, found => found
  | (p, nm, ty) :: rest, m, found =>
    if reTest p m then
      if found.any (fun b => b.name == nm) then collectBlocklists rest m found
      else collectBlocklists rest m (found ++ [⟨nm, ty⟩])
    else collectBlocklists rest m found

/-- Result of `identifyBlocklist`: nothing, a single entry, or a list. -/
inductive BlocklistResult where
  | noList : BlocklistResult
  | single (b : BlockInfo) : BlocklistResult
  | lists (bs : List BlockInfo) : BlocklistResult
deriving DecidableEq, Repr

/-- Names treated as generic detections. -/
def GENERIC_NAMES : List String := ["RBL", "DNSBL", "Blocklist"]

/-- Identify blocklists mentioned in a message. -/
def identifyBlocklist (message : List Char) : BlocklistResult :=
  let found := collectBlocklists BLOCKLIST_PATTERNS (lowerStr message) []
  if found = [] then .noList
  else
    let specific := found.filter (fun b => !(GENERIC_NAMES.contains b.name))
    match specific with
    | [] =>
      match found with
      | [] => .noList
      | f :: _ => .single f
    | [b] => .single b
    | bs => .lists bs

/-! ### Actions (src/index.js `ACTION_MAP`, `getAction`) -/

/-- Action mapping based on bounce category. -/
def ACTION_MAP : List (String × String) :=
  [ ("user_unknown", "remove"), ("invalid_address", "remove"),
    ("mailbox_disabled", "remove"), ("greylisting", "retry"),
    ("rate_limited", "retry"), ("server_error", "retry"),
    ("mailbox_full", "retry"), ("ip_blacklisted", "retry_different_ip"),
    ("domain_blacklisted", "fix_configuration"),
    ("auth_failure", "fix_configuration"), ("spam_blocked", "review"),
    ("policy_blocked", "review"), ("virus_detected", "remove_content"),
    ("geo_blocked", "retry_different_ip"), ("relay_denied", "fix_configuration"),
    ("unknown", "review") ]

/-- Get recommended action for a category, defaulting to review. -/
def getAction (category : String) : String :=
  (ACTION_MAP.lookup category).getD "review"

/-! ### Configuration constants (src/index.js top of file) -/

/-- Fixed token sequence length. -/
def MAX_LENGTH : Nat := 100

/-- Maximum characters per message before truncation. -/
def MAX_MESSAGE_LENGTH : Nat := 10000

/-- Embedding dimension. -/
def EMBEDDING_DIM : Nat := 64

/-- Number of classification labels. -/
def NUM_LABELS : Nat := 16

/-- Confidence threshold below which the rule fallback is consulted. -/
def CODE_FALLBACK_THRESHOLD : ℚ := 1 / 2

/-! ### Weight parsing (src/index.js `parseWeights`) -/

/-- The five tensors of the model, each a flat array. -/
structure WeightTensors (α : Type) where
  embedding : List α
  dense1Kernel : List α
  dense1Bias : List α
  dense2Kernel : List α
  dense2Bias : List α
deriving DecidableEq, Repr

/-- JS `Array.prototype.slice(start, stop)` on lists. -/
def sliceL {α : Type} (data : List α) (start stop : Nat) : List α :=
  (data.drop start).take (stop - start)

/-- Parse weights from flat binary data: successive fixed-size slices for
the two dense layers, with the embedding taking the remainder.  No length
validation is performed. -/
def parseWeights (data : List ℚ) : WeightTensors ℚ :=
  let offset0 := 0
  let dense1KernelSize := 64 * 64
  let dense1Kernel := sliceL data offset0 (offset0 + dense1KernelSize)
  let offset1 := offset0 + dense1KernelSize
  let dense1BiasSize := 64
  let dense1Bias := sliceL data offset1 (offset1 + dense1BiasSize)
  let offset2 := offset1 + dense1BiasSize
  let dense2KernelSize := 64 * NUM_LABELS
  let dense2Kernel := sliceL data offset2 (offset2 + dense2KernelSize)
  let offset3 := offset2 + dense2KernelSize
  let dense2BiasSize := NUM_LABELS
  let dense2Bias := sliceL data offset3 (offset3 + dense2BiasSize)
  let offset4 := offset3 + dense2BiasSize
  let embedding := data.drop offset4
  { embedding := embedding, dense1Kernel := dense1Kernel, dense1Bias := dense1Bias,
    dense2Kernel := dense2Kernel, dense2Bias := dense2Bias }

/-! ### Input sanitization (src/index.js `sanitizeMessage`) -/

/-- JavaScript values that can be passed to `classify`. -/
inductive JsVal where
  | vnull : JsVal
  | vundefined : JsVal
  | vbool (b : Bool) : JsVal
  | vnum (q : ℚ) : JsVal
  | vstr (s : List Char) : JsVal
  | vobj : JsVal
deriving DecidableEq, Repr

/-- JS `String.prototype.trim`. -/
def jsTrim (s : List Char) : List Char :=
  ((s.dropWhile isTrimWs).reverse.dropWhile isTrimWs).reverse

/-- Sanitize and validate an input message: reject null/undefined,
non-strings and empty or whitespace-only strings; truncate overly long
messages. -/
def sanitizeMessage (v : JsVal) : Except String (List Char) :=
  match v with
  | .vnull => .error "Message must be a non-empty string"
  | .vundefined => .error "Message must be a non-empty string"
  | .vbool _ => .error "Message must be a string"
  | .vnum _ => .error "Message must be a string"
  | .vobj => .error "Message must be a string"
  | .vstr s =>
    if (jsTrim s).length = 0 then .error "Message must not be empty or whitespace-only"
    else if MAX_MESSAGE_LENGTH < s.length then .ok (s.take MAX_MESSAGE_LENGTH)
    else .ok s

/-! ### Decision core (src/index.js `classify`, lines 630-678)

The model scores are abstracted as a list of rationals (the argmax loop
and threshold test only compare numbers, so exact arithmetic mirrors the
JS comparisons). -/

/-- The argmax scan of `classify`: `maxScore` starts at 0, `maxIndex` at 0,
and a strictly greater score updates both. -/
def scanMax : List ℚ → ℚ → Nat → Nat → ℚ × Nat
  | [], best, bi, _ => (best, bi)
  | x :: xs, best, bi, i =>
    if best < x then scanMax xs x i (i + 1) else scanMax xs best bi (i + 1)

/-- Classification result; `usedFallback = false` models the field being
absent from the JS result object. -/
structure ClassifyOut where
  label : String
  confidence : ℚ
  action : String
  usedFallback : Bool
  retryAfter : Option Nat
  blocklist : BlocklistResult
deriving DecidableEq, Repr

/-- Decision logic of `classify` on a sanitized message, given the model
scores: argmax with first-index ties, fallback override below the
threshold, and the auxiliary extractions. -/
def buildResult (idToLabel : Nat → String) (scores : List ℚ) (message : List Char) :
    ClassifyOut :=
  let mk := scanMax scores 0 0 0
  let maxScore := mk.1
  let maxIndex := mk.2
  let fb := if maxScore < CODE_FALLBACK_THRESHOLD then getCodeBasedFallback message
    else Option.none
  let label := match fb with | some l => l | none => idToLabel maxIndex
  let usedFallback := match fb with | some _ => true | none => false
  { label := label, confidence := maxScore, action := getAction label,
    usedFallback := usedFallback, retryAfter := extractRetryTiming message,
    blocklist := identifyBlocklist message }

/-- The `classify` pipeline after initialization: sanitize, then score the
sanitized message (`scoresOf` abstracts tokenize plus the forward pass)
and build the result. -/
def classifyRun (scoresOf : List Char → List ℚ) (idToLabel : Nat → String) (v : JsVal) :
    Except String ClassifyOut :=
  (sanitizeMessage v).map (fun m => buildResult idToLabel (scoresOf m) m)

/-! ### Forward pass (src/index.js `relu`, `softmax`, `forward`)

The 32-bit float arithmetic is idealized as real arithmetic. -/

/-- ReLU activation. -/
def relu (x : ℝ) : ℝ := max 0 x

/-- JS `Math.max(...arr)` on a list (the source only applies it to the
nonempty logit list). -/
def maxList : List ℝ → ℝ
  | [] => 0
  | x :: xs => xs.foldl max x

/-- Numerically-stabilized softmax: subtract the maximum, exponentiate,
normalize by the sum. -/
noncomputable def softmax (arr : List ℝ) : List ℝ :=
  let m := maxList arr
  let exps := arr.map (fun x => Real.exp (x - m))
  let s := exps.sum
  exps.map (fun e => e / s)

/-- Embedding lookup and global average pooling combined: the embedding
row of every token position (padding id 0 included) is added into the
accumulator, which is then divided by the constant `MAX_LENGTH` — not by
the number of real tokens. -/
noncomputable def pooledVec (w : WeightTensors ℝ) (tokens : List Nat) (j : Nat) : ℝ :=
  (tokens.map (fun t => w.embedding.getD (t * EMBEDDING_DIM + j) 0)).sum / (MAX_LENGTH : ℝ)

/-- Dense layer 1 (64 to 64) with ReLU: unit `i` sums
`pooled[j] * kernel1[j*64+i]` plus the bias. -/
noncomputable def hiddenVec (w : WeightTensors ℝ) (tokens : List Nat) (i : Nat) : ℝ :=
  relu (w.dense1Bias.getD i 0 +
    ((List.range 64).map (fun j => pooledVec w tokens j * w.dense1Kernel.getD (j * 64 + i) 0)).sum)

/-- Dense layer 2 (64 to `NUM_LABELS`) without activation: unit `i` sums
`hidden[j] * kernel2[j*NUM_LABELS+i]` plus the bias. -/
noncomputable def outputVec (w : WeightTensors ℝ) (tokens : List Nat) : List ℝ :=
  (List.range NUM_LABELS).map (fun i =>
    w.dense2Bias.getD i 0 +
      ((List.range 64).map (fun j =>
        hiddenVec w tokens j * w.dense2Kernel.getD (j * NUM_LABELS + i) 0)).sum)

/-- Forward pass: pooling, the two dense layers, then softmax. -/
noncomputable def forward (w : WeightTensors ℝ) (tokens : List Nat) : List ℝ :=
  softmax (outputVec w tokens)

/-! ### Initialization state machine (src/index.js `initialize`,
module-level singleton state)

The three external loads (vocabulary, labels, weights) are passed in as
`Except` results; the function mirrors the body of `initialize` for a
single sequential call. -/

/-- The module-level singleton state. -/
structure InitState where
  weights : Option (WeightTensors ℚ)
  vocabMap : Option (List (List Char × Nat))
  labels : Option (List String)
  isInitialized : Bool
  initPromise : Bool
  modelBasePath : Option (List Char)
deriving DecidableEq, Repr

/-- The state after module load or after `reset()`. -/
def freshState : InitState :=
  { weights := Option.none, vocabMap := Option.none, labels := Option.none,
    isInitialized := false, initPromise := false, modelBasePath := Option.none }

/-- Build the vocabulary map: each word mapped to its index. -/
def buildVocabMap (vocabData : List (List Char)) : List (List Char × Nat) :=
  vocabData.enum.map (fun p => (p.2, p.1))

/-- One sequential run of `initialize`: short-circuit when already
initialized or when a load is in flight; otherwise set the base path and
load vocabulary, labels and weights in order, clearing only the promise on
failure. -/
def initializeStep (st : InitState) (path : List Char)
    (vocabRes : Except String (List (List Char)))
    (labelsRes : Except String (List String))
    (weightsRes : Except String (List ℚ)) : InitState × Except String Unit :=
  if st.isInitialized then (st, .ok ())
  else if st.initPromise then (st, .ok ())
  else
    let st1 := { st with initPromise := true, modelBasePath := some path }
    match vocabRes with
    | .error e => ({ st1 with initPromise := false }, .error e)
    | .ok vocabData =>
      let st2 := { st1 with vocabMap := some (buildVocabMap vocabData) }
      match labelsRes with
      | .error e => ({ st2 with initPromise := false }, .error e)
      | .ok ls =>
        let st3 := { st2 with labels := some ls }
        match weightsRes with
        | .error e => ({ st3 with initPromise := false }, .error e)
        | .ok wdata =>
          ({ st3 with weights := some (parseWeights wdata), isInitialized := true }, .ok ())

/-- Readiness check (`isReady`). -/
def isReady (st : InitState) : Bool := st.isInitialized

/-! ### Weight-store properties (claim C1) -/

/-- Gluing a take/drop slice back onto the rest of the drop. -/
theorem take_drop_glue {α : Type} (l : List α) (a b c : Nat) (h : c = a + b) :
    (l.drop a).take b ++ l.drop c = l.drop a := by
  subst h
  rw [← List.drop_drop, List.take_append_drop]

/-- C1 (counterexample): `parseWeights` performs no length validation; on a
flat buffer of length 3 — not a valid total float count for any vocabulary
size — it does not fail but returns sliced (here mostly empty) tensors. -/
theorem parseWeights_no_length_check_cex :
    parseWeights (List.replicate 3 0) =
      { embedding := [], dense1Kernel := [0, 0, 0], dense1Bias := [],
        dense2Kernel := [], dense2Bias := [] }
    ∧ (List.replicate 3 (0 : ℚ)).length = 3 := by
  exact ⟨by decide, by decide⟩

/-- C1 (amended): `parseWeights` always succeeds and slices by contiguous
offset in the fixed order dense1 kernel, dense1 bias, dense2 kernel,
dense2 bias, embedding (the remainder): concatenating the five tensors in
that order reconstructs the input buffer, and when the buffer length is
exactly `4096 + 64 + 64*NUM_LABELS + NUM_LABELS + v*64` the tensors have
exactly their documented sizes. -/
theorem parseWeights_contiguous (data : List ℚ) (v : Nat) :
    ((parseWeights data).dense1Kernel ++ ((parseWeights data).dense1Bias ++
      ((parseWeights data).dense2Kernel ++ ((parseWeights data).dense2Bias ++
      (parseWeights data).embedding))) = data)
    ∧ (data.length = 4096 + 64 + 64 * NUM_LABELS + NUM_LABELS + v * 64 →
        (parseWeights data).dense1Kernel.length = 4096
        ∧ (parseWeights data).dense1Bias.length = 64
        ∧ (parseWeights data).dense2Kernel.length = 64 * NUM_LABELS
        ∧ (parseWeights data).dense2Bias.length = NUM_LABELS
        ∧ (parseWeights data).embedding.length = v * 64) := by
  constructor
  · show data.take 4096 ++ ((data.drop 4096).take 64 ++ ((data.drop 4160).take 1024 ++
      ((data.drop 5184).take 16 ++ data.drop 5200))) = data
    rw [take_drop_glue data 5184 16 5200 (by norm_num),
      take_drop_glue data 4160 1024 5184 (by norm_num),
      take_drop_glue data 4096 64 4160 (by norm_num),
      List.take_append_drop]
  · intro h
    simp only [NUM_LABELS] at h
    refine ⟨?_, ?_, ?_, ?_, ?_⟩ <;>
      simp only [parseWeights, sliceL, NUM_LABELS, List.length_take, List.length_drop] <;>
      omega

/-- C1 (witness): instantiation of the slicing theorem on an all-zero
buffer of the exact expected length for vocabulary size 1. -/
theorem parseWeights_contiguous_witness :
    (List.replicate 5264 (0 : ℚ)).length = 4096 + 64 + 64 * NUM_LABELS + NUM_LABELS + 1 * 64
    ∧ ((parseWeights (List.replicate 5264 (0 : ℚ))).dense1Kernel.length = 4096
        ∧ (parseWeights (List.replicate 5264 (0 : ℚ))).dense1Bias.length = 64
        ∧ (parseWeights (List.replicate 5264 (0 : ℚ))).dense2Kernel.length = 64 * NUM_LABELS
        ∧ (parseWeights (List.replicate 5264 (0 : ℚ))).dense2Bias.length = NUM_LABELS
        ∧ (parseWeights (List.replicate 5264 (0 : ℚ))).embedding.length = 1 * 64) :=
  ⟨by simp only [List.length_replicate, NUM_LABELS],
    (parseWeights_contiguous (List.replicate 5264 (0 : ℚ)) 1).2
      (by simp only [List.length_replicate, NUM_LABELS])⟩

/-! ### Initialization-failure properties (claim C2) -/

/-- C2 (counterexample): a failing `initialize` run can leave the
process-wide state partially populated — when the vocabulary loads but the
labels load fails, the error propagates and `isReady` stays false, yet the
vocabulary map remains set. -/
theorem initialize_partial_state_cex :
    ((initializeStep freshState ("model".data) (.ok ["ok".data])
        (.error "labels load failed") (.error "labels load failed")).2
      = .error "labels load failed")
    ∧ ((initializeStep freshState ("model".data) (.ok ["ok".data])
        (.error "labels load failed") (.error "labels load failed")).1.vocabMap
      ≠ Option.none)
    ∧ (isReady (initializeStep freshState ("model".data) (.ok ["ok".data])
        (.error "labels load failed") (.error "labels load failed")).1 = false) := by
  refine ⟨rfl, ?_, rfl⟩
  simp [initializeStep, freshState]

/-- C2 (amended): for every failing run of `initialize` from an
uninitialized state with no load in flight, the error is propagated,
`isReady` remains false, the promise is cleared and the weights are never
populated — but fields written before the failing step (base path,
vocabulary, labels) may remain populated; a subsequent `initialize` call
starts a fresh load that, when its loads succeed, fully overwrites the
state. -/
theorem initialize_failure_state (st : InitState) (path : List Char)
    (vres : Except String (List (List Char))) (lres : Except String (List String))
    (wres : Except String (List ℚ)) (e : String)
    (hninit : st.isInitialized = false) (hnp : st.initPromise = false)
    (hfail : vres = .error e ∨ (∃ vd, vres = .ok vd ∧ lres = .error e) ∨
      (∃ vd ld, vres = .ok vd ∧ lres = .ok ld ∧ wres = .error e)) :
    ((initializeStep st path vres lres wres).2 = .error e)
    ∧ (isReady (initializeStep st path vres lres wres).1 = false)
    ∧ ((initializeStep st path vres lres wres).1.initPromise = false)
    ∧ ((initializeStep st path vres lres wres).1.weights = st.weights)
    ∧ (∀ path2 vd2 ld2 wd2,
        (initializeStep (initializeStep st path vres lres wres).1 path2
          (.ok vd2) (.ok ld2) (.ok wd2)).2 = .ok ()
        ∧ (initializeStep (initializeStep st path vres lres wres).1 path2
            (.ok vd2) (.ok ld2) (.ok wd2)).1 =
          { weights := some (parseWeights wd2), vocabMap := some (buildVocabMap vd2),
            labels := some ld2, isInitialized := true, initPromise := true,
            modelBasePath := some path2 }) := by
  rcases hfail with rfl | ⟨vd, rfl, rfl⟩ | ⟨vd, ld, rfl, rfl, rfl⟩ <;>
    simp [initializeStep, isReady, hninit, hnp]

/-- C2 (witness): instantiation of the failure-state theorem on a fresh
state whose labels load fails. -/
theorem initialize_failure_state_witness :
    freshState.isInitialized = false
    ∧ ((initializeStep freshState ("model".data) (.ok ["ok".data])
        (.error "labels load failed") (.error "labels load failed")).2
      = .error "labels load failed")
    ∧ (isReady (initializeStep freshState ("model".data) (.ok ["ok".data])
        (.error "labels load failed") (.error "labels load failed")).1 = false)
    ∧ ((initializeStep freshState ("model".data) (.ok ["ok".data])
        (.error "labels load failed") (.error "labels load failed")).1.initPromise = false) :=
  ⟨rfl,
    (initialize_failure_state freshState ("model".data) (.ok ["ok".data])
      (.error "labels load failed") (.error "labels load failed") "labels load failed"
      rfl rfl (Or.inr (Or.inl ⟨["ok".data], rfl, rfl⟩))).1,
    (initialize_failure_state freshState ("model".data) (.ok ["ok".data])
      (.error "labels load failed") (.error "labels load failed") "labels load failed"
      rfl rfl (Or.inr (Or.inl ⟨["ok".data], rfl, rfl⟩))).2.1,
    (initialize_failure_state freshState ("model".data) (.ok ["ok".data])
      (.error "labels load failed") (.error "labels load failed") "labels load failed"
      rfl rfl (Or.inr (Or.inl ⟨["ok".data], rfl, rfl⟩))).2.2.1⟩

/-! ### Fallback-cascade order (claim C5) -/

/-- C5: the rule fallback tries the ordered text patterns first and
returns the first match; only when no text pattern matches does it consult
the extended-code table and then the main-code table, returning nothing
only when all three steps yield nothing; on `"550 No such user here"` the
text pattern wins and yields `user_unknown`. -/
theorem getCodeBasedFallback_order (m : List Char) :
    (∀ l, getTextBasedFallback m = some l → getCodeBasedFallback m = some l)
    ∧ (∀ l, getTextBasedFallback m = Option.none →
        (extractSmtpCodes m).extendedCode.bind (fun c => SMTP_CODE_MAP.lookup c) = some l →
        getCodeBasedFallback m = some l)
    ∧ (getTextBasedFallback m = Option.none →
        (extractSmtpCodes m).extendedCode.bind (fun c => SMTP_CODE_MAP.lookup c) = Option.none →
        getCodeBasedFallback m
          = (extractSmtpCodes m).mainCode.bind (fun c => SMTP_MAIN_CODE_MAP.lookup c))
    ∧ (getCodeBasedFallback m = Option.none ↔
        getTextBasedFallback m = Option.none
        ∧ (extractSmtpCodes m).extendedCode.bind (fun c => SMTP_CODE_MAP.lookup c) = Option.none
        ∧ (extractSmtpCodes m).mainCode.bind (fun c => SMTP_MAIN_CODE_MAP.lookup c) = Option.none)
    ∧ getCodeBasedFallback ("550 No such user here".data) = some "user_unknown"
    ∧ getTextBasedFallback ("550 No such user here".data) = some "user_unknown" := by
  refine ⟨?_, ?_, ?_, ?_, by decide, by decide⟩
  · intro l h
    simp [getCodeBasedFallback, h]
  · intro l ht he
    simp [getCodeBasedFallback, ht, he]
  · intro ht he
    simp [getCodeBasedFallback, ht, he]
  · rcases hT : getTextBasedFallback m with _ | l
    · rcases hE : (extractSmtpCodes m).extendedCode.bind (fun c => SMTP_CODE_MAP.lookup c)
        with _ | l2
      · simp [getCodeBasedFallback, hT, hE]
      · simp [getCodeBasedFallback, hT, hE]
    · simp [getCodeBasedFallback, hT]

/-- C5 (witness): instantiation on `"550 No such user here"`. -/
theorem getCodeBasedFallback_order_witness :
    getTextBasedFallback ("550 No such user here".data) = some "user_unknown"
    ∧ getCodeBasedFallback ("550 No such user here".data) = some "user_unknown" :=
  ⟨by decide,
    (getCodeBasedFallback_order ("550 No such user here".data)).1 "user_unknown" (by decide)⟩

/-! ### Blocklist identification (claim C7) -/

/-- The collected blocklists carry pairwise-distinct names, in
first-occurrence order. -/
theorem collectBlocklists_names_nodup (ps : List (RE × String × String)) (m : List Char)
    (acc : List BlockInfo) (h : (acc.map (fun b => b.name)).Nodup) :
    ((collectBlocklists ps m acc).map (fun b => b.name)).Nodup := by
  induction ps generalizing acc with
  | nil => exact h
  | cons p rest ih =>
    obtain ⟨pat, nm, ty⟩ := p
    simp only [collectBlocklists]
    split
    · split
      · exact ih acc h
      · rename_i hany
        apply ih
        rw [List.map_append, List.nodup_append]
        refine ⟨h, List.nodup_singleton _, ?_⟩
        intro x hx1 hx2
        rcases List.mem_map.mp hx1 with ⟨b, hb, hbn⟩
        simp only [List.map_cons, List.map_nil, List.mem_singleton] at hx2
        apply hany
        rw [List.any_eq_true]
        exact ⟨b, hb, by simp [hbn, hx2]⟩
    · exact ih acc h

/-- C7: `identifyBlocklist` collects matching blocklists deduplicated by
name in first-occurrence order; more than one non-generic match yields the
whole list, exactly one yields that entry, only generic matches yield the
first match, and no match yields nothing; on
`"Blocked by spamhaus.org and barracuda"` it returns exactly the two
entries Spamhaus and Barracuda in first-match order. -/
theorem identifyBlocklist_spec (m : List Char) :
    (((collectBlocklists BLOCKLIST_PATTERNS (lowerStr m) []).map (fun b => b.name)).Nodup)
    ∧ (collectBlocklists BLOCKLIST_PATTERNS (lowerStr m) [] = [] →
        identifyBlocklist m = .noList)
    ∧ (∀ b b2 bs,
        (collectBlocklists BLOCKLIST_PATTERNS (lowerStr m) []).filter
          (fun b => !(GENERIC_NAMES.contains b.name)) = b :: b2 :: bs →
        identifyBlocklist m = .lists (b :: b2 :: bs))
    ∧ (∀ b,
        (collectBlocklists BLOCKLIST_PATTERNS (lowerStr m) []).filter
          (fun b => !(GENERIC_NAMES.contains b.name)) = [b] →
        identifyBlocklist m = .single b)
    ∧ (∀ f fs,
        (collectBlocklists BLOCKLIST_PATTERNS (lowerStr m) []).filter
          (fun b => !(GENERIC_NAMES.contains b.name)) = [] →
        collectBlocklists BLOCKLIST_PATTERNS (lowerStr m) [] = f :: fs →
        identifyBlocklist m = .single f)
    ∧ identifyBlocklist ("Blocked by spamhaus.org and barracuda".data)
        = .lists [⟨"Spamhaus", "ip"⟩, ⟨"Barracuda", "ip"⟩] := by
  refine ⟨collectBlocklists_names_nodup _ _ [] (by simp), ?_, ?_, ?_, ?_, by decide⟩
  · intro h
    simp [identifyBlocklist, h]
  · intro b b2 bs hf
    have hne : collectBlocklists BLOCKLIST_PATTERNS (lowerStr m) [] ≠ [] := by
      intro h0
      rw [h0] at hf
      simp at hf
    simp only [identifyBlocklist]
    rw [if_neg hne, hf]
  · intro b hf
    have hne : collectBlocklists BLOCKLIST_PATTERNS (lowerStr m) [] ≠ [] := by
      intro h0
      rw [h0] at hf
      simp at hf
    simp only [identifyBlocklist]
    rw [if_neg hne, hf]
  · intro f fs hspec hfound
    simp only [identifyBlocklist]
    rw [if_neg (by rw [hfound]; exact List.cons_ne_nil f fs), hspec, hfound]

/-- C7 (witness): instantiation on the two-blocklist message. -/
theorem identifyBlocklist_spec_witness :
    ((collectBlocklists BLOCKLIST_PATTERNS
        (lowerStr ("Blocked by spamhaus.org and barracuda".data)) []).filter
      (fun b => !(GENERIC_NAMES.contains b.name))
      = [⟨"Spamhaus", "ip"⟩, ⟨"Barracuda", "ip"⟩])
    ∧ identifyBlocklist ("Blocked by spamhaus.org and barracuda".data)
        = .lists [⟨"Spamhaus", "ip"⟩, ⟨"Barracuda", "ip"⟩] :=
  ⟨by decide,
    (identifyBlocklist_spec ("Blocked by spamhaus.org and barracuda".data)).2.2.1
      ⟨"Spamhaus", "ip"⟩ ⟨"Barracuda", "ip"⟩ [] (by decide)⟩

/-! ### Retry-timing extraction (claims C8 and C10) -/

/-- Every value returned by the retry loop passed the range check. -/
theorem retryLoop_range (ps : List RE) (m : List Char) (x : Nat)
    (h : retryLoop ps m = some x) : 1 ≤ x ∧ x ≤ 86400 := by
  induction ps with
  | nil => simp [retryLoop] at h
  | cons p rest ih =>
    rcases hm : reMatch p m with _ | caps
    · simp only [retryLoop, hm] at h
      exact ih h
    · simp only [retryLoop, hm] at h
      rcases hc : capGet caps 1 with _ | v
      · simp only [hc] at h
        exact ih h
      · simp only [hc] at h
        by_cases hv : v ≠ []
        · rw [if_pos hv] at h
          by_cases hr : 1 ≤ toSeconds v ((capGet caps 2).getD ("seconds".data))
              ∧ toSeconds v ((capGet caps 2).getD ("seconds".data)) ≤ 86400
          · rw [if_pos hr] at h
            cases Option.some.inj h
            exact hr
          · rw [if_neg hr] at h
            exact ih h
        · rw [if_neg hv] at h
          exact ih h

/-- C8: unit abbreviations are normalized (`s`/`sec`/`second` to seconds,
`m`/`min`/`minute` times 60, `h`/`hr`/`hour` times 3600), only values in
`[1, 86400]` are ever returned, `"Retry in 5 minutes"` yields 300 and
`"Wait 100000 seconds"` yields nothing. -/
theorem extractRetryTiming_spec :
    (∀ v : List Char,
      toSeconds v ("second".data) = parseDec v
      ∧ toSeconds v ("sec".data) = parseDec v
      ∧ toSeconds v (['s']) = parseDec v
      ∧ toSeconds v ("minute".data) = parseDec v * 60
      ∧ toSeconds v ("min".data) = parseDec v * 60
      ∧ toSeconds v (['m']) = parseDec v * 60
      ∧ toSeconds v ("hour".data) = parseDec v * 3600
      ∧ toSeconds v ("hr".data) = parseDec v * 3600
      ∧ toSeconds v (['h']) = parseDec v * 3600)
    ∧ (∀ m x, extractRetryTiming m = some x → 1 ≤ x ∧ x ≤ 86400)
    ∧ extractRetryTiming ("Retry in 5 minutes".data) = some 300
    ∧ extractRetryTiming ("Wait 100000 seconds".data) = Option.none :=
  ⟨fun _ => ⟨rfl, rfl, rfl, rfl, rfl, rfl, rfl, rfl, rfl⟩,
    fun m x h => retryLoop_range RETRY_PATTERNS (lowerStr m) x h,
    by decide, by decide⟩

/-- C8 (witness): the range bound, instantiated on `"Retry in 5 minutes"`. -/
theorem extractRetryTiming_spec_witness :
    extractRetryTiming ("Retry in 5 minutes".data) = some 300
    ∧ (1 ≤ 300 ∧ 300 ≤ 86400) :=
  ⟨by decide, extractRetryTiming_spec.2.1 ("Retry in 5 minutes".data) 300 (by decide)⟩

/-- C10: a pattern whose first match normalizes outside `[1, 86400]` does
not end the extraction; the loop continues with the remaining patterns,
and a message containing both `"wait 100000 seconds"` and
`"delayed 10 minutes"` yields 600, not nothing. -/
theorem retryLoop_out_of_range_continues (p : RE) (ps : List RE) (m : List Char)
    (caps : Caps) (v : List Char)
    (hm : reMatch p m = some caps) (hv : capGet caps 1 = some v) (hne : v ≠ [])
    (hout : ¬(1 ≤ toSeconds v ((capGet caps 2).getD ("seconds".data))
        ∧ toSeconds v ((capGet caps 2).getD ("seconds".data)) ≤ 86400)) :
    (retryLoop (p :: ps) m = retryLoop ps m)
    ∧ extractRetryTiming ("wait 100000 seconds and delayed 10 minutes".data) = some 600 := by
  constructor
  · simp only [retryLoop, hm, hv]
    rw [if_pos hne, if_neg hout]
  · decide

/-- C10 (witness): the `wait` pattern matches 100000 seconds, which is out
of range, and the loop continues with the remaining patterns. -/
theorem retryLoop_out_of_range_continues_witness :
    reMatch retryPat3 (lowerStr ("wait 100000 seconds and delayed 10 minutes".data))
      = some [(1, "100000".data), (2, "second".data)]
    ∧ (retryLoop (retryPat3 :: [retryPat4, retryPat5, retryPat6, retryPat7, retryPat8,
          retryPat9, retryPat10])
        (lowerStr ("wait 100000 seconds and delayed 10 minutes".data))
      = retryLoop [retryPat4, retryPat5, retryPat6, retryPat7, retryPat8,
          retryPat9, retryPat10]
        (lowerStr ("wait 100000 seconds and delayed 10 minutes".data)))
    ∧ extractRetryTiming ("wait 100000 seconds and delayed 10 minutes".data) = some 600 :=
  ⟨by decide,
    (retryLoop_out_of_range_continues retryPat3
      [retryPat4, retryPat5, retryPat6, retryPat7, retryPat8, retryPat9, retryPat10]
      (lowerStr ("wait 100000 seconds and delayed 10 minutes".data))
      [(1, "100000".data), (2, "second".data)] ("100000".data)
      (by decide) (by decide) (by decide) (by decide)).1,
    (retryLoop_out_of_range_continues retryPat3
      [retryPat4, retryPat5, retryPat6, retryPat7, retryPat8, retryPat9, retryPat10]
      (lowerStr ("wait 100000 seconds and delayed 10 minutes".data))
      [(1, "100000".data), (2, "second".data)] ("100000".data)
      (by decide) (by decide) (by decide) (by decide)).2⟩

/-! ### Argmax and fallback decision (claim C3) -/

/-- The scan result dominates the initial best and every scanned element. -/
theorem scanMax_le (l : List ℚ) (best : ℚ) (bi i : Nat) :
    best ≤ (scanMax l best bi i).1 ∧ ∀ x ∈ l, x ≤ (scanMax l best bi i).1 := by
  induction l generalizing best bi i with
  | nil => exact ⟨le_refl best, by simp⟩
  | cons y ys ih =>
    simp only [scanMax]
    split
    · rename_i hlt
      obtain ⟨h1, h2⟩ := ih y i (i + 1)
      refine ⟨le_trans (le_of_lt hlt) h1, ?_⟩
      intro x hx
      rcases List.mem_cons.mp hx with rfl | hx2
      · exact h1
      · exact h2 x hx2
    · rename_i hnlt
      obtain ⟨h1, h2⟩ := ih best bi (i + 1)
      refine ⟨h1, ?_⟩
      intro x hx
      rcases List.mem_cons.mp hx with rfl | hx2
      · exact le_trans (not_lt.mp hnlt) h1
      · exact h2 x hx2

/-- Either the scan keeps the initial best and index, or it returns the
value and offset-adjusted index of a scanned element that strictly exceeds
the initial best and every earlier element. -/
theorem scanMax_attain (l : List ℚ) (best : ℚ) (bi i : Nat) :
    ((scanMax l best bi i).1 = best ∧ (scanMax l best bi i).2 = bi)
    ∨ ∃ j, j < l.length ∧ (scanMax l best bi i).2 = i + j
        ∧ l.getD j 0 = (scanMax l best bi i).1
        ∧ best < (scanMax l best bi i).1
        ∧ ∀ j2, j2 < j → l.getD j2 0 < (scanMax l best bi i).1 := by
  induction l generalizing best bi i with
  | nil => exact Or.inl ⟨rfl, rfl⟩
  | cons y ys ih =>
    simp only [scanMax]
    split
    · rename_i hlt
      rcases ih y i (i + 1) with ⟨hm, hk⟩ | ⟨j, hj, hk, hg, hbm, hall⟩
      · right
        refine ⟨0, by simp, by rw [hk]; omega, by simpa using hm.symm, by rw [hm]; exact hlt, ?_⟩
        intro j2 hj2
        exact absurd hj2 (Nat.not_lt_zero j2)
      · right
        refine ⟨j + 1, by simp; omega, by rw [hk]; omega, by simpa using hg,
          lt_trans hlt hbm, ?_⟩
        intro j2 hj2
        cases j2 with
        | zero => simpa using hbm
        | succ j3 =>
          rw [List.getD_cons_succ]
          exact hall j3 (by omega)
    · rename_i hnlt
      rcases ih best bi (i + 1) with ⟨hm, hk⟩ | ⟨j, hj, hk, hg, hbm, hall⟩
      · exact Or.inl ⟨hm, hk⟩
      · right
        refine ⟨j + 1, by simp; omega, by rw [hk]; omega, by simpa using hg, hbm, ?_⟩
        intro j2 hj2
        cases j2 with
        | zero =>
          rw [List.getD_cons_zero]
          exact lt_of_le_of_lt (not_lt.mp hnlt) hbm
        | succ j3 =>
          rw [List.getD_cons_succ]
          exact hall j3 (by omega)

/-- C3: `classify` picks the maximum score with ties resolved by the
first-encountered index; below the 0.5 threshold a non-null fallback label
replaces the model label with `usedFallback` set, the reported confidence
staying the model's max score; at or above the threshold, or when the
fallback is null, the argmax label is kept and `usedFallback` stays
absent. -/
theorem classify_argmax_and_fallback (idToLabel : Nat → String) (scores : List ℚ)
    (m : List Char) (hpos : ∃ x ∈ scores, 0 < x) :
    ((buildResult idToLabel scores m).confidence = (scanMax scores 0 0 0).1)
    ∧ ((scanMax scores 0 0 0).2 < scores.length
        ∧ scores.getD (scanMax scores 0 0 0).2 0 = (scanMax scores 0 0 0).1)
    ∧ (∀ x ∈ scores, x ≤ (scanMax scores 0 0 0).1)
    ∧ (∀ j, j < (scanMax scores 0 0 0).2 → scores.getD j 0 < (scanMax scores 0 0 0).1)
    ∧ (∀ l, (scanMax scores 0 0 0).1 < CODE_FALLBACK_THRESHOLD →
        getCodeBasedFallback m = some l →
        (buildResult idToLabel scores m).label = l
        ∧ (buildResult idToLabel scores m).usedFallback = true)
    ∧ ((CODE_FALLBACK_THRESHOLD ≤ (scanMax scores 0 0 0).1
          ∨ getCodeBasedFallback m = Option.none) →
        (buildResult idToLabel scores m).label = idToLabel (scanMax scores 0 0 0).2
        ∧ (buildResult idToLabel scores m).usedFallback = false) := by
  have hle := scanMax_le scores 0 0 0
  have hat := scanMax_attain scores 0 0 0
  have hmaxpos : 0 < (scanMax scores 0 0 0).1 := by
    obtain ⟨x, hx, hx0⟩ := hpos
    exact lt_of_lt_of_le hx0 (hle.2 x hx)
  refine ⟨rfl, ?_, hle.2, ?_, ?_, ?_⟩
  · rcases hat with ⟨hm, _⟩ | ⟨j, hj, hk, hg, _, _⟩
    · rw [hm] at hmaxpos
      exact absurd hmaxpos (lt_irrefl 0)
    · constructor
      · rw [hk, Nat.zero_add]
        exact hj
      · rw [hk, Nat.zero_add]
        exact hg
  · rcases hat with ⟨hm, _⟩ | ⟨j, hj, hk, hg, _, hall⟩
    · rw [hm] at hmaxpos
      exact absurd hmaxpos (lt_irrefl 0)
    · intro j2 hj2
      rw [hk] at hj2
      exact hall j2 (by omega)
  · intro l hlt hfb
    constructor <;> simp [buildResult, if_pos hlt, hfb]
  · intro hcase
    rcases hcase with hge | hnone
    · constructor <;> simp [buildResult, if_neg (not_lt.mpr hge)]
    · constructor <;> simp [buildResult, hnone]

/-- Sample score vector with its maximum 2/5 at index 1, below the
threshold. -/
def demoScores : List ℚ :=
  [1/10, 2/5, 1/20, 1/20, 1/20, 1/20, 1/20, 1/20, 1/20, 1/20, 0, 0, 0, 0, 0, 0]

/-- C3 (witness): on the sample scores and a message whose fallback is
`user_unknown`, the fallback overrides the label and marks
`usedFallback`. -/
theorem classify_argmax_and_fallback_witness :
    (∃ x ∈ demoScores, (0 : ℚ) < x)
    ∧ ((buildResult (fun _ => "unknown") demoScores
          ("550 No such user here".data)).label = "user_unknown"
        ∧ (buildResult (fun _ => "unknown") demoScores
            ("550 No such user here".data)).usedFallback = true) :=
  ⟨by norm_num [demoScores],
    (classify_argmax_and_fallback (fun _ => "unknown") demoScores
      ("550 No such user here".data) (by norm_num [demoScores])).2.2.2.2.1 "user_unknown"
      (by norm_num [scanMax, demoScores, CODE_FALLBACK_THRESHOLD]) (by decide)⟩

/-! ### Softmax score properties (claim C4) -/

/-- Summing a list divided pointwise by a constant. -/
theorem list_sum_div (l : List ℝ) (c : ℝ) :
    (l.map (fun x => x / c)).sum = l.sum / c := by
  induction l with
  | nil => simp
  | cons x xs ih => simp [ih, add_div]

/-- Softmax of a nonempty list preserves length, lands in `[0, 1]` and
sums to exactly 1. -/
theorem softmax_props (arr : List ℝ) (h : arr ≠ []) :
    (softmax arr).length = arr.length
    ∧ (∀ x ∈ softmax arr, 0 ≤ x ∧ x ≤ 1)
    ∧ (softmax arr).sum = 1 := by
  have hexpos : ∀ e ∈ arr.map (fun x => Real.exp (x - maxList arr)), 0 < e := by
    intro e he
    rcases List.mem_map.mp he with ⟨x, _, rfl⟩
    exact Real.exp_pos _
  have hne : arr.map (fun x => Real.exp (x - maxList arr)) ≠ [] := by
    simpa using h
  have hsum : 0 < (arr.map (fun x => Real.exp (x - maxList arr))).sum :=
    List.sum_pos _ hexpos hne
  refine ⟨by simp [softmax], ?_, ?_⟩
  · intro x hx
    rcases List.mem_map.mp hx with ⟨e, he, rfl⟩
    constructor
    · exact div_nonneg (le_of_lt (hexpos e he)) (le_of_lt hsum)
    · rw [div_le_one hsum]
      exact List.single_le_sum (fun y hy => le_of_lt (hexpos y hy)) e he
  · show ((arr.map (fun x => Real.exp (x - maxList arr))).map
      (fun e => e / (arr.map (fun x => Real.exp (x - maxList arr))).sum)).sum = 1
    rw [list_sum_div]
    exact div_self (ne_of_gt hsum)

/-- C4: the forward pass (embedding rows summed over every position,
padding included, averaged by the constant 100, dense layer 1 with ReLU,
dense layer 2, max-subtracted softmax) yields 16 scores, each in `[0, 1]`,
summing to 1 — in particular within 1e-5 of 1. -/
theorem forward_scores_valid (w : WeightTensors ℝ) (tokens : List Nat) :
    (forward w tokens).length = NUM_LABELS
    ∧ (∀ x ∈ forward w tokens, 0 ≤ x ∧ x ≤ 1)
    ∧ (forward w tokens).sum = 1
    ∧ |(forward w tokens).sum - 1| ≤ 1 / 100000 := by
  have hne : outputVec w tokens ≠ [] := by
    simp [outputVec, NUM_LABELS]
  obtain ⟨hlen, hmem, hsum⟩ := softmax_props (outputVec w tokens) hne
  refine ⟨?_, hmem, hsum, ?_⟩
  · show (softmax (outputVec w tokens)).length = NUM_LABELS
    rw [hlen]
    simp [outputVec]
  · show |(softmax (outputVec w tokens)).sum - 1| ≤ 1 / 100000
    rw [hsum]
    norm_num

/-- C4 (witness): the theorem applied to empty weight tensors and the
empty token sequence. -/
theorem forward_scores_valid_witness :
    (forward ⟨[], [], [], [], []⟩ []).length = NUM_LABELS
    ∧ (forward ⟨[], [], [], [], []⟩ []).sum = 1 :=
  ⟨(forward_scores_valid ⟨[], [], [], [], []⟩ []).1,
    (forward_scores_valid ⟨[], [], [], [], []⟩ []).2.2.1⟩

/-! ### Input validation and truncation (claim C6) -/

/-- A string trims to nothing exactly when it is empty or
whitespace-only. -/
theorem jsTrim_empty_iff (s : List Char) :
    (jsTrim s).length = 0 ↔ s.all isTrimWs = true := by
  unfold jsTrim
  rw [List.length_eq_zero, List.reverse_eq_nil_iff, List.dropWhile_eq_nil_iff]
  constructor
  · intro h
    rw [List.all_eq_true]
    intro x hx
    by_cases hx2 : x ∈ s.dropWhile isTrimWs
    · exact h x (List.mem_reverse.mpr hx2)
    · rw [← List.takeWhile_append_dropWhile isTrimWs s] at hx
      rcases List.mem_append.mp hx with h1 | h2
      · exact List.mem_takeWhile_imp h1
      · exact absurd h2 hx2
  · intro h x hx
    rw [List.all_eq_true] at h
    exact h x (List.Sublist.mem (List.mem_reverse.mp hx) (List.dropWhile_sublist isTrimWs))

/-- C6: `classify` fails on every non-string, empty or whitespace-only
input, returning no partial result; a valid string longer than
`MAX_MESSAGE_LENGTH` is truncated to that length before any further
processing, so scoring, fallback, retry-timing and blocklist extraction
all see only the truncated prefix. -/
theorem classify_input_validation (scoresOf : List Char → List ℚ) (idToLabel : Nat → String) :
    (∀ v : JsVal, (∀ s, v ≠ JsVal.vstr s) →
      ∃ e, classifyRun scoresOf idToLabel v = .error e)
    ∧ (∀ s, (jsTrim s).length = 0 →
        ∃ e, classifyRun scoresOf idToLabel (.vstr s) = .error e)
    ∧ (∀ s, ((jsTrim s).length = 0 ↔ s.all isTrimWs = true))
    ∧ (∀ s, (jsTrim s).length ≠ 0 → s.length ≤ MAX_MESSAGE_LENGTH →
        classifyRun scoresOf idToLabel (.vstr s)
          = .ok (buildResult idToLabel (scoresOf s) s))
    ∧ (∀ s, (jsTrim s).length ≠ 0 → MAX_MESSAGE_LENGTH < s.length →
        classifyRun scoresOf idToLabel (.vstr s)
          = .ok (buildResult idToLabel (scoresOf (s.take MAX_MESSAGE_LENGTH))
              (s.take MAX_MESSAGE_LENGTH))) := by
  refine ⟨?_, ?_, jsTrim_empty_iff, ?_, ?_⟩
  · intro v hv
    cases v with
    | vnull => exact ⟨_, rfl⟩
    | vundefined => exact ⟨_, rfl⟩
    | vbool b => exact ⟨_, rfl⟩
    | vnum q => exact ⟨_, rfl⟩
    | vobj => exact ⟨_, rfl⟩
    | vstr s => exact absurd rfl (hv s)
  · intro s h
    refine ⟨"Message must not be empty or whitespace-only", ?_⟩
    simp [classifyRun, sanitizeMessage, h, Except.map]
  · intro s h1 h2
    simp [classifyRun, sanitizeMessage, h1, not_lt.mpr h2, Except.map]
  · intro s h1 h2
    simp [classifyRun, sanitizeMessage, h1, h2, Except.map]

/-- An all-letter over-long message does not trim to nothing. -/
theorem replicate_a_trim_ne :
    (jsTrim (List.replicate 10001 'a')).length ≠ 0 := by
  intro hc
  rw [jsTrim_empty_iff] at hc
  rw [show (10001 : Nat) = 10000 + 1 from rfl, List.replicate_succ] at hc
  simp only [List.all_cons, Bool.and_eq_true] at hc
  exact absurd hc.1 (by decide)

/-- C6 (witness): a null input and a whitespace-only input fail, and an
over-long valid input is processed on its 10000-character prefix. -/
theorem classify_input_validation_witness :
    (∃ e, classifyRun (fun _ => []) (fun _ => "unknown") JsVal.vnull = .error e)
    ∧ (∃ e, classifyRun (fun _ => []) (fun _ => "unknown")
        (JsVal.vstr ("   ".data)) = .error e)
    ∧ (classifyRun (fun _ => []) (fun _ => "unknown")
        (JsVal.vstr (List.replicate 10001 'a'))
      = .ok (buildResult (fun _ => "unknown") []
          ((List.replicate 10001 'a').take MAX_MESSAGE_LENGTH))) :=
  ⟨(classify_input_validation (fun _ => []) (fun _ => "unknown")).1 JsVal.vnull
      (fun s h => by cases h),
    (classify_input_validation (fun _ => []) (fun _ => "unknown")).2.1 ("   ".data)
      (by decide),
    (classify_input_validation (fun _ => []) (fun _ => "unknown")).2.2.2.2
      (List.replicate 10001 'a')
      replicate_a_trim_ne
      (by rw [List.length_replicate]; decide)⟩

/-! ### SMTP code extraction (claim C9) -/

/-- The matched prefix run never exceeds the input length. -/
theorem runLen_le_length (p : Char → Bool) (s : List Char) : runLen p s ≤ s.length := by
  induction s with
  | nil => simp [runLen]
  | cons c r ih =>
    simp only [runLen, List.length_cons]
    split
    · omega
    · omega

/-- The bounded repetition `\d{3}` matches exactly when the input starts
with at least three digits, consuming exactly three. -/
theorem repG3_run (s : List Char) :
    nfaRun (.repG Char.isDigit 3 (some 3)) s none =
      if 3 ≤ runLen Char.isDigit s then [(s.drop 3, prevAfter s none 3, ([] : Caps))]
      else [] := by
  by_cases h3 : 3 ≤ runLen Char.isDigit s
  · rw [if_pos h3]
    have hmin : min 3 (runLen Char.isDigit s) = 3 := by omega
    simp only [nfaRun, hmin]
    rw [show (((List.range (3 + 1)).reverse).filter (fun k => decide (3 ≤ k))) = [3] from
      by decide]
    simp
  · rw [if_neg h3]
    have hmin : min 3 (runLen Char.isDigit s) = runLen Char.isDigit s := by omega
    simp only [nfaRun, hmin]
    rw [List.filter_eq_nil_iff.mpr ?_]
    · simp
    · intro k hk
      simp only [List.mem_reverse, List.mem_range] at hk
      simp only [decide_eq_true_eq]
      omega

/-- Evaluation of the capture group around `\\d{3}`. -/
theorem grp_main_run (s : List Char) :
    nfaRun (.grp 1 (.repG Char.isDigit 3 (some 3))) s none =
      if 3 ≤ runLen Char.isDigit s then
        [(s.drop 3, prevAfter s none 3, ([(1, s.take 3)] : Caps))]
      else [] := by
  have hunfold : nfaRun (.grp 1 (.repG Char.isDigit 3 (some 3))) s none
      = (nfaRun (.repG Char.isDigit 3 (some 3)) s none).map
          (fun o => (o.1, o.2.1, o.2.2 ++ [(1, s.take (s.length - o.1.length))])) := rfl
  rw [hunfold, repG3_run]
  by_cases h3 : 3 ≤ runLen Char.isDigit s
  · rw [if_pos h3, if_pos h3]
    have htake : s.length - (s.drop 3).length = 3 := by
      have := runLen_le_length Char.isDigit s
      rw [List.length_drop]
      omega
    simp only [List.map_cons, List.map_nil, List.nil_append, htake]
  · rw [if_neg h3, if_neg h3]
    rfl

/-- Anchored evaluation of `^(\\d{3})[\\s-]`: three leading digits followed
by a space or hyphen, capturing the three digits. -/
theorem matchHere_main (s : List Char) :
    matchHere mainCodeRe s none =
      if 3 ≤ runLen Char.isDigit s then
        match s.drop 3 with
        | [] => none
        | x :: _ => if isSpaceJs x || x == '-' then some [(1, s.take 3)] else none
      else none := by
  have hunfold : matchHere mainCodeRe s none =
      match ((nfaRun (.grp 1 (.repG Char.isDigit 3 (some 3))) s none).map
        (fun o => (nfaRun (.cls (fun c => isSpaceJs c || c == '-')) o.1 o.2.1).map
          (fun o2 => (o2.1, o2.2.1, o.2.2 ++ o2.2.2)))).flatten with
      | [] => none
      | o :: _ => some o.2.2 := rfl
  rw [hunfold, grp_main_run]
  by_cases h3 : 3 ≤ runLen Char.isDigit s
  · rw [if_pos h3, if_pos h3]
    rcases hd : s.drop 3 with _ | ⟨x, r⟩
    · simp [nfaRun]
    · by_cases hp : (isSpaceJs x || x == '-') = true
      · have hp2 : isSpaceJs x = true ∨ x = '-' := by simpa using hp
        simp [nfaRun, hp2, if_pos hp]
      · have hp2 : ¬(isSpaceJs x = true ∨ x = '-') := by
          intro hcontra
          rcases hcontra with h1 | h1 <;> simp [h1] at hp
        simp only [Bool.not_eq_true] at hp
        simp [nfaRun, hp2, hp]
  · rw [if_neg h3, if_neg h3]
    rfl

/-- A run of at least three exposes the first three characters. -/
theorem runLen_ge3 (p : Char → Bool) (s : List Char) (h : 3 ≤ runLen p s) :
    ∃ a b d t, s = a :: b :: d :: t ∧ p a = true ∧ p b = true ∧ p d = true := by
  rcases s with _ | ⟨a, _ | ⟨b, _ | ⟨d, t⟩⟩⟩
  · exact absurd (le_trans h (runLen_le_length p [])) (by simp)
  · exact absurd (le_trans h (runLen_le_length p [a])) (by simp)
  · exact absurd (le_trans h (runLen_le_length p [a, b])) (by simp)
  · refine ⟨a, b, d, t, rfl, ?_, ?_, ?_⟩
    · cases ha : p a
      · rw [show runLen p (a :: b :: d :: t) = 0 from by simp [runLen, ha]] at h
        omega
      · rfl
    · cases ha : p a
      · rw [show runLen p (a :: b :: d :: t) = 0 from by simp [runLen, ha]] at h
        omega
      · cases hb : p b
        · rw [show runLen p (a :: b :: d :: t) = 1 from by simp [runLen, ha, hb]] at h
          omega
        · rfl
    · cases ha : p a
      · rw [show runLen p (a :: b :: d :: t) = 0 from by simp [runLen, ha]] at h
        omega
      · cases hb : p b
        · rw [show runLen p (a :: b :: d :: t) = 1 from by simp [runLen, ha, hb]] at h
          omega
        · cases hd : p d
          · rw [show runLen p (a :: b :: d :: t) = 2 from by simp [runLen, ha, hb, hd]] at h
            omega
          · rfl

/-- C9: the main code is a three-digit code exactly when it opens the
message and is followed by a space or hyphen — a code occurring anywhere
else is never returned — and the extended code is the first
boundary-delimited `[245].d.d` substring found anywhere, as the concrete
examples illustrate. -/
theorem extractSmtpCodes_spec :
    (∀ (s : List Char) (c : String), (extractSmtpCodes s).mainCode = some c ↔
      ∃ a b d x r, s = a :: b :: d :: x :: r ∧ a.isDigit = true ∧ b.isDigit = true
        ∧ d.isDigit = true ∧ (isSpaceJs x || x == '-') = true
        ∧ c = String.mk [a, b, d])
    ∧ extractSmtpCodes ("550 5.1.1 User unknown".data)
        = ⟨some "550", some "5.1.1"⟩
    ∧ extractSmtpCodes ("Connection refused".data) = ⟨Option.none, Option.none⟩
    ∧ extractSmtpCodes ("Mailbox full: 552 4.2.2 over quota".data)
        = ⟨Option.none, some "4.2.2"⟩ := by
  refine ⟨?_, by decide, by decide, by decide⟩
  intro s c
  constructor
  · intro h
    simp only [extractSmtpCodes, matchHere_main] at h
    by_cases h3 : 3 ≤ runLen Char.isDigit s
    · rw [if_pos h3] at h
      obtain ⟨a, b, d, t, rfl, ha, hb, hd⟩ := runLen_ge3 Char.isDigit s h3
      rcases ht : t with _ | ⟨x, r⟩
      · subst ht
        simp at h
      · subst ht
        by_cases hp : (isSpaceJs x || x == '-') = true
        · rw [show (a :: b :: d :: x :: r).drop 3 = x :: r from rfl] at h
          simp [capGet, List.lookup, hp] at h
          exact ⟨a, b, d, x, r, rfl, ha, hb, hd, hp, h.symm⟩
        · rw [show (a :: b :: d :: x :: r).drop 3 = x :: r from rfl] at h
          simp [hp] at h
    · rw [if_neg h3] at h
      simp at h
  · rintro ⟨a, b, d, x, r, rfl, ha, hb, hd, hp, rfl⟩
    have h3 : 3 ≤ runLen Char.isDigit (a :: b :: d :: x :: r) := by
      simp [runLen, ha, hb, hd]
    simp only [extractSmtpCodes, matchHere_main, if_pos h3]
    rw [show (a :: b :: d :: x :: r).drop 3 = x :: r from rfl]
    simp [hp, capGet, List.lookup]

/-- C9 (witness): the characterization applied to
`"550 5.1.1 User unknown"`. -/
theorem extractSmtpCodes_spec_witness :
    (extractSmtpCodes ("550 5.1.1 User unknown".data)).mainCode = some "550"
    ∧ (∃ a b d x r, "550 5.1.1 User unknown".data = a :: b :: d :: x :: r
        ∧ a.isDigit = true ∧ b.isDigit = true ∧ d.isDigit = true
        ∧ (isSpaceJs x || x == '-') = true ∧ "550" = String.mk [a, b, d]) :=
  ⟨by decide,
    (extractSmtpCodes_spec.1 ("550 5.1.1 User unknown".data) "550").mp (by decide)⟩

end BounceClassifier
